import Mathlib

/-!
Verification of the video converter bot core against its specification.

The Python sources are shallowly embedded: pure functions become Lean
functions, stateful handlers become explicit state-passing functions, the
filesystem is a finite set of path strings, and wall-clock times are
rationals.  Fallible code returns `Option` or an explicit result type.
-/

namespace VCB

/-! ## Rate limiter (src/utils/rate_limiter.py)

`RateLimiter` keeps, per user, a list of request timestamps.  We model the
record of a single user (the Python dict is keyed by user id and entries never
interact), timestamps as rationals, and `time.time()` as an explicit `now`
argument supplied by the caller.
-/

/-- Configuration slice used by the rate limiter: `MAX_REQUESTS_PER_MINUTE`
(default 5) and `ADMIN_USER_IDS` from src/utils/config.py. -/
structure RLConfig where
  maxRequests : Nat
  adminIds : List Int

/-- Default configuration values from src/utils/config.py
(`MAX_REQUESTS_PER_MINUTE = 5`, empty `ADMIN_USER_IDS`). -/
def defaultRLConfig : RLConfig := { maxRequests := 5, adminIds := [] }

/-- `RateLimiter._window_seconds = 60`. -/
def windowSeconds : ℚ := 60

/-- `RateLimiter._cleanup_old_requests`: keep only timestamps strictly newer
than `now - window` (the Python filter keeps `timestamp > window_start`). -/
def cleanup_old_requests (now : ℚ) (reqs : List ℚ) : List ℚ :=
  reqs.filter (fun t => now - windowSeconds < t)

/-- Result pair `(is_allowed, requests_remaining)` of `check_rate_limit`. -/
structure RLResult where
  allowed : Bool
  remaining : Int
deriving DecidableEq, Repr

/-- `RateLimiter.check_rate_limit` acting on one user record: admins are
allowed unconditionally; otherwise old requests are pruned, the remaining
count is compared to the ceiling, and on admission `now` is appended. -/
def check_rate_limit (cfg : RLConfig) (userId : Int) (now : ℚ) (reqs : List ℚ) :
    RLResult × List ℚ :=
  if userId ∈ cfg.adminIds then
    ({ allowed := true, remaining := (cfg.maxRequests : Int) }, reqs)
  else
    let pruned := cleanup_old_requests now reqs
    let current := pruned.length
    let remaining : Int := max 0 ((cfg.maxRequests : Int) - (current : Int))
    if current < cfg.maxRequests then
      ({ allowed := true, remaining := remaining }, pruned ++ [now])
    else
      ({ allowed := false, remaining := remaining }, pruned)

/-- Run a sequence of `check_rate_limit` calls at the given times against one
user record, returning for each call the call time and the `allowed` flag. -/
def run_calls (cfg : RLConfig) (userId : Int) : List ℚ → List ℚ → List (ℚ × Bool)
  | _, [] => []
  | reqs, t :: ts =>
    let step := check_rate_limit cfg userId t reqs
    (t, step.1.allowed) :: run_calls cfg userId step.2 ts

/-- Times of the calls that were admitted (`allowed = true`). -/
def allowedTimes (results : List (ℚ × Bool)) : List ℚ :=
  (results.filter (fun p => p.2)).map Prod.fst

/-- Number of timestamps of `l` inside the trailing window `(T - 60, T]`. -/
def windowCount (T : ℚ) (l : List ℚ) : Nat :=
  (l.filter (fun s => decide (T - windowSeconds < s) && decide (s ≤ T))).length

theorem windowCount_filter_le (T : ℚ) (p : ℚ → Bool) (l : List ℚ) :
    windowCount T (l.filter p) ≤ windowCount T l := by
  unfold windowCount
  exact List.Sublist.length_le (List.Sublist.filter _ (List.filter_sublist l))

theorem windowCount_cleanup_of_le (T t : ℚ) (l : List ℚ) (h : t ≤ T) :
    windowCount T (cleanup_old_requests t l) = windowCount T l := by
  unfold windowCount cleanup_old_requests
  rw [List.filter_filter]
  congr 1
  apply List.filter_congr
  intro a _
  by_cases h1 : T - windowSeconds < a
  · by_cases h2 : a ≤ T
    · have h3 : t - windowSeconds < a := by
        have : t - windowSeconds ≤ T - windowSeconds := by linarith
        linarith
      simp [h1, h2, h3]
    · simp [h2]
  · simp [h1]

theorem windowCount_append_singleton (T t : ℚ) (l : List ℚ) :
    windowCount T (l ++ [t]) =
      windowCount T l + (if T - windowSeconds < t ∧ t ≤ T then 1 else 0) := by
  unfold windowCount
  rw [List.filter_append, List.length_append]
  congr 1
  by_cases h1 : T - windowSeconds < t
  · by_cases h2 : t ≤ T
    · simp [h1, h2]
    · simp [h1, h2]
  · simp [h1]

theorem windowCount_eq_zero_of_gt (T : ℚ) (l : List ℚ) (h : ∀ s ∈ l, T < s) :
    windowCount T l = 0 := by
  unfold windowCount
  rw [List.length_eq_zero]
  rw [List.filter_eq_nil_iff]
  intro a ha
  have := h a ha
  simp only [Bool.and_eq_true, decide_eq_true_eq, not_and]
  intro _
  linarith

/-- Every admitted time produced by `run_calls` is one of the call times. -/
theorem mem_allowedTimes_run_calls (cfg : RLConfig) (userId : Int) :
    ∀ (ts reqs : List ℚ) (s : ℚ), s ∈ allowedTimes (run_calls cfg userId reqs ts) → s ∈ ts := by
  intro ts
  induction ts with
  | nil => intro reqs s hs; simp [run_calls, allowedTimes] at hs
  | cons t ts ih =>
    intro reqs s hs
    unfold run_calls allowedTimes at hs
    by_cases hb : (check_rate_limit cfg userId t reqs).1.allowed
    · simp only [hb, List.filter_cons_of_pos, List.map_cons, List.mem_cons] at hs
      rcases hs with hs | hs
      · exact List.mem_cons.mpr (Or.inl hs)
      · exact List.mem_cons_of_mem t (ih _ s hs)
    · simp only [hb, Bool.false_eq_true, not_false_eq_true, List.filter_cons_of_neg] at hs
      exact List.mem_cons_of_mem t (ih _ s hs)

theorem windowCount_le_length (T : ℚ) (l : List ℚ) : windowCount T l ≤ l.length :=
  List.length_filter_le _ l

theorem windowCount_cons (T t : ℚ) (l : List ℚ) :
    windowCount T (t :: l) =
      (if T - windowSeconds < t ∧ t ≤ T then 1 else 0) + windowCount T l := by
  unfold windowCount
  by_cases h1 : T - windowSeconds < t
  · by_cases h2 : t ≤ T
    · simp [List.filter_cons, h1, h2, Nat.add_comm]
    · simp [List.filter_cons, h1, h2]
  · simp [List.filter_cons, h1]

theorem allowedTimes_cons_true (t : ℚ) (r : List (ℚ × Bool)) :
    allowedTimes ((t, true) :: r) = t :: allowedTimes r := by
  simp [allowedTimes]

theorem allowedTimes_cons_false (t : ℚ) (r : List (ℚ × Bool)) :
    allowedTimes ((t, false) :: r) = allowedTimes r := by
  simp [allowedTimes]

/-- For a non-admin user, one `check_rate_limit` call reduces to the
prune-count-append shape of the Python `else` branch. -/
theorem check_rate_limit_of_not_admin (cfg : RLConfig) (userId : Int)
    (hadmin : userId ∉ cfg.adminIds) (now : ℚ) (reqs : List ℚ) :
    check_rate_limit cfg userId now reqs =
      (if (cleanup_old_requests now reqs).length < cfg.maxRequests then
        ({ allowed := true,
           remaining := max 0 ((cfg.maxRequests : Int) -
             ((cleanup_old_requests now reqs).length : Int)) },
         cleanup_old_requests now reqs ++ [now])
      else
        ({ allowed := false,
           remaining := max 0 ((cfg.maxRequests : Int) -
             ((cleanup_old_requests now reqs).length : Int)) },
         cleanup_old_requests now reqs)) := by
  unfold check_rate_limit
  rw [if_neg hadmin]

/-- Sliding-window invariant: starting from any record, the number of admitted
call times falling in the trailing window `(T - 60, T]` plus the window count
of the starting record stays below the ceiling (or below the starting window
count when that already exceeds the ceiling). -/
theorem run_calls_window_invariant (cfg : RLConfig) (userId : Int)
    (hadmin : userId ∉ cfg.adminIds) :
    ∀ ts : List ℚ, List.Pairwise (· ≤ ·) ts → ∀ (reqs : List ℚ) (T : ℚ),
      windowCount T (allowedTimes (run_calls cfg userId reqs ts)) + windowCount T reqs
        ≤ max cfg.maxRequests (windowCount T reqs) := by
  intro ts
  induction ts with
  | nil =>
    intro _ reqs T
    simp only [run_calls, allowedTimes, List.filter_nil, List.map_nil]
    have : windowCount T ([] : List ℚ) = 0 := by simp [windowCount]
    rw [this, Nat.zero_add]
    exact le_max_right _ _
  | cons t ts ih =>
    intro hsorted reqs T
    rw [List.pairwise_cons] at hsorted
    obtain ⟨hts, hsorted'⟩ := hsorted
    rw [show run_calls cfg userId reqs (t :: ts) =
        (t, (check_rate_limit cfg userId t reqs).1.allowed) ::
          run_calls cfg userId (check_rate_limit cfg userId t reqs).2 ts from rfl]
    rw [check_rate_limit_of_not_admin cfg userId hadmin t reqs]
    by_cases hcap : (cleanup_old_requests t reqs).length < cfg.maxRequests
    · -- admitted: the record becomes `pruned ++ [t]`
      rw [if_pos hcap]
      simp only [allowedTimes_cons_true, windowCount_cons]
      by_cases hT : t ≤ T
      · have hprune : windowCount T (cleanup_old_requests t reqs) = windowCount T reqs :=
          windowCount_cleanup_of_le T t reqs hT
        have hIH := ih hsorted' (cleanup_old_requests t reqs ++ [t]) T
        rw [windowCount_append_singleton, hprune] at hIH
        by_cases hwin : T - windowSeconds < t
        · -- head call time lands in the window
          rw [if_pos ⟨hwin, hT⟩] at hIH ⊢
          have hlt : windowCount T reqs < cfg.maxRequests :=
            lt_of_le_of_lt (hprune ▸ windowCount_le_length T (cleanup_old_requests t reqs)) hcap
          have hmax : max cfg.maxRequests (windowCount T reqs + 1) = cfg.maxRequests := by
            omega
          rw [hmax] at hIH
          omega
        · rw [if_neg (fun hc => hwin hc.1)] at hIH ⊢
          omega
      · -- the call time is beyond the window end: no later admitted time can land in it
        have hzero : windowCount T
            (allowedTimes (run_calls cfg userId (cleanup_old_requests t reqs ++ [t]) ts)) = 0 := by
          apply windowCount_eq_zero_of_gt
          intro s hs
          have hmem := mem_allowedTimes_run_calls cfg userId ts _ s hs
          have : t ≤ s := hts s hmem
          push_neg at hT
          linarith
        rw [hzero, if_neg (fun hc => hT hc.2)]
        simp only [Nat.zero_add]
        exact le_max_right cfg.maxRequests (windowCount T reqs)
    · -- denied: the record becomes the pruned list, nothing admitted now
      rw [if_neg hcap]
      simp only [allowedTimes_cons_false]
      by_cases hT : t ≤ T
      · have hprune : windowCount T (cleanup_old_requests t reqs) = windowCount T reqs :=
          windowCount_cleanup_of_le T t reqs hT
        have hIH := ih hsorted' (cleanup_old_requests t reqs) T
        rw [hprune] at hIH
        exact hIH
      · have hzero : windowCount T
            (allowedTimes (run_calls cfg userId (cleanup_old_requests t reqs) ts)) = 0 := by
          apply windowCount_eq_zero_of_gt
          intro s hs
          have hmem := mem_allowedTimes_run_calls cfg userId ts _ s hs
          have : t ≤ s := hts s hmem
          push_neg at hT
          linarith
        rw [hzero]
        simp only [Nat.zero_add]
        exact le_max_right cfg.maxRequests (windowCount T reqs)

/-- Claim C1: for every identity and every trailing 60-second window, the
quota check never returns `allowed = true` for more than the configured
ceiling of requests whose recorded timestamps fall inside that window; prior
to the capacity decision it prunes timestamps older than `now - 60` (so the
decision is taken on the pruned record, and every timestamp surviving a call
is newer than `now - 60`); and every admin identity is always allowed. -/
theorem rate_limit_window_bound (cfg : RLConfig) (userId : Int) (ts : List ℚ)
    (hadmin : userId ∉ cfg.adminIds) (hsorted : List.Pairwise (· ≤ ·) ts) (T : ℚ) :
    windowCount T (allowedTimes (run_calls cfg userId [] ts)) ≤ cfg.maxRequests
    ∧ (∀ now reqs, (check_rate_limit cfg userId now reqs).1.allowed =
        decide ((cleanup_old_requests now reqs).length < cfg.maxRequests))
    ∧ (∀ now reqs s, s ∈ (check_rate_limit cfg userId now reqs).2 →
        now - windowSeconds < s)
    ∧ (∀ adminId ∈ cfg.adminIds, ∀ now reqs,
        (check_rate_limit cfg adminId now reqs).1 =
          { allowed := true, remaining := (cfg.maxRequests : Int) }) := by
  refine ⟨?_, ?_, ?_, ?_⟩
  · have h := run_calls_window_invariant cfg userId hadmin ts hsorted [] T
    have hnil : windowCount T ([] : List ℚ) = 0 := by simp [windowCount]
    rw [hnil] at h
    omega
  · intro now reqs
    rw [check_rate_limit_of_not_admin cfg userId hadmin now reqs]
    by_cases hcap : (cleanup_old_requests now reqs).length < cfg.maxRequests
    · simp [hcap]
    · simp [hcap]
  · intro now reqs s hs
    rw [check_rate_limit_of_not_admin cfg userId hadmin now reqs] at hs
    by_cases hcap : (cleanup_old_requests now reqs).length < cfg.maxRequests
    · rw [if_pos hcap] at hs
      simp only [List.mem_append, List.mem_singleton] at hs
      rcases hs with hs | hs
      · have := List.of_mem_filter hs
        simpa using this
      · subst hs
        have : (0 : ℚ) < windowSeconds := by norm_num [windowSeconds]
        linarith
    · rw [if_neg hcap] at hs
      have := List.of_mem_filter hs
      simpa using this
  · intro adminId hmem now reqs
    unfold check_rate_limit
    rw [if_pos hmem]

/-- Witness for C1: a concrete non-admin identity firing six back-to-back
requests under the default ceiling of 5; the admitted count in the trailing
window never exceeds 5. -/
theorem rate_limit_window_bound_witness :
    ((7 : Int) ∉ defaultRLConfig.adminIds)
    ∧ List.Pairwise (· ≤ ·) ([0, 1, 2, 3, 4, 5, 6] : List ℚ)
    ∧ windowCount 10 (allowedTimes (run_calls defaultRLConfig 7 [] [0, 1, 2, 3, 4, 5, 6]))
        ≤ defaultRLConfig.maxRequests := by
  refine ⟨by decide, by decide, ?_⟩
  exact (rate_limit_window_bound defaultRLConfig 7 [0, 1, 2, 3, 4, 5, 6]
    (by decide) (by decide) 10).1

/-! ## String helpers shared by the embedded handlers

Python string operations used by the sources: `str.strip`, `str.split(sep)`,
`str.startswith`, and `float(...)` on simple decimal literals.
-/

/-- Python `str.split(sep)` for a one-character separator: splitting never
drops empty pieces, and splitting the empty string yields one empty piece. -/
def splitOnChar (sep : Char) : List Char → List (List Char)
  | [] => [[]]
  | c :: cs =>
    if c = sep then [] :: splitOnChar sep cs
    else
      match splitOnChar sep cs with
      | [] => [[c]]
      | h :: t => (c :: h) :: t

/-- Python `str.strip()` (whitespace from both ends). -/
def pyStripChars (l : List Char) : List Char :=
  ((l.dropWhile Char.isWhitespace).reverse.dropWhile Char.isWhitespace).reverse

/-- Digit-string value, e.g. `digitsToNat ['9','0'] = 90`. -/
def digitsToNat (l : List Char) : Nat :=
  l.foldl (fun acc c => 10 * acc + (c.toNat - '0'.toNat)) 0

/-- Unsigned decimal literal accepted by Python `float`: `digits`,
`digits.digits`, `digits.` or `.digits`.  (The model covers the plain decimal
fragment of `float`; exponents, underscores, `inf` and `nan` are outside the
inputs exercised by the handlers.) -/
def parseUnsignedDecimal (l : List Char) : Option ℚ :=
  if l ≠ [] ∧ l.all Char.isDigit then some (digitsToNat l)
  else
    match splitOnChar '.' l with
    | [ip, fp] =>
      if ip.all Char.isDigit ∧ fp.all Char.isDigit ∧ (ip ≠ [] ∨ fp ≠ []) then
        some ((digitsToNat ip : ℚ) + (digitsToNat fp : ℚ) / (10 : ℚ) ^ fp.length)
      else none
    | _ => none

/-- Python `float(s)` on the decimal fragment: strip whitespace, optional
sign, unsigned decimal; `none` models the `ValueError`. -/
def pyFloatOfChars (l : List Char) : Option ℚ :=
  match pyStripChars l with
  | [] => none
  | c :: rest =>
    if c = '+' then parseUnsignedDecimal rest
    else if c = '-' then (parseUnsignedDecimal rest).map Neg.neg
    else parseUnsignedDecimal (c :: rest)

/-- Python `a.startswith(b)`. -/
def pyStartswith (s pre : String) : Bool :=
  pre.data.isPrefixOf s.data

/-! ## Time parsing (src/handlers/video_handlers.py, parse_time_format)

`parse_time_format` strips the input, first tries `float` directly, then
splits on `:` into `MM:SS` or `H:MM:SS` and sums the weighted `float`s of the
parts; any other shape raises `ValueError` (modelled as `none`). -/

/-- `parse_time_format` from src/handlers/video_handlers.py.  The Python
code strips once into `time_str` and reuses it; stripping is pure, so the
two occurrences below denote that single value. -/
def parse_time_format (s : String) : Option ℚ :=
  match pyFloatOfChars (pyStripChars s.data) with
  | some v => some v
  | none =>
    match splitOnChar ':' (pyStripChars s.data) with
    | [m, sec] =>
      match pyFloatOfChars m, pyFloatOfChars sec with
      | some mv, some sv => some (mv * 60 + sv)
      | _, _ => none
    | [h, m, sec] =>
      match pyFloatOfChars h, pyFloatOfChars m, pyFloatOfChars sec with
      | some hv, some mv, some sv => some (hv * 3600 + mv * 60 + sv)
      | _, _, _ => none
    | _ => none

/-! ## Session state machine (src/handlers/video_handlers.py, commands.py)

aiogram FSM state: the current `State` (or none when cleared) plus the
accumulated data dict.  `state.clear()` resets both. -/

/-- `VideoProcessingStates` from src/handlers/video_handlers.py. -/
inductive Phase
  | waiting_for_video
  | waiting_for_operation
  | waiting_for_format
  | waiting_for_quality
  | waiting_for_audio_format
  | waiting_for_audio_bitrate
  | waiting_for_trim_start
  | waiting_for_trim_end
  | processing
deriving DecidableEq, Repr

/-- The keys the handlers store via `state.update_data`.  `trimEnd` is
doubly optional: the key may be absent, or present with value `None`
("trim to the end of the video"). -/
structure SessionData where
  videoPath : Option String
  operation : Option String
  targetFormat : Option String
  quality : Option String
  audioFormat : Option String
  bitrate : Option String
  trimStart : Option ℚ
  trimEnd : Option (Option ℚ)
  originalMessageId : Option Nat
deriving DecidableEq, Repr

/-- Data dict right after `state.clear()`. -/
def emptySessionData : SessionData :=
  { videoPath := none, operation := none, targetFormat := none, quality := none
    audioFormat := none, bitrate := none, trimStart := none, trimEnd := none
    originalMessageId := none }

/-- One user's aiogram FSM context: current phase (none = idle) and data. -/
structure FSMContextState where
  phase : Option Phase
  data : SessionData
deriving DecidableEq, Repr

/-- `state.clear()`. -/
def clearedContext : FSMContextState := { phase := none, data := emptySessionData }

inductive CancelReply
  | noActiveOperation
  | operationCanceled
deriving DecidableEq, Repr

/-- `cmd_cancel` from src/handlers/commands.py: with no active state it only
reports "no active operation"; otherwise it calls `state.clear()` and reports
the cancellation.  The filesystem is passed through untouched (the handler
performs no file operation). -/
def cmd_cancel (st : FSMContextState) (fs : Finset String) :
    FSMContextState × Finset String × CancelReply :=
  match st.phase with
  | none => (st, fs, .noActiveOperation)
  | some _ => (clearedContext, fs, .operationCanceled)

/-- The `format_value == "cancel"` branch of `process_format_selection`
(src/handlers/video_handlers.py lines 356-362): edit the message text, then
`state.clear()`.  No file operation is performed. -/
def format_selection_cancel (_st : FSMContextState) (fs : Finset String) :
    FSMContextState × Finset String :=
  (clearedContext, fs)

inductive TrimStartReply
  | invalidTimeFormat
  | positiveTime
  | askEndTime
deriving DecidableEq, Repr

/-- `process_trim_start`: parse the text; on `ValueError` re-prompt leaving
the context untouched; negative values re-prompt likewise; otherwise store
`trim_start` and advance to `waiting_for_trim_end`. -/
def process_trim_start (text : String) (st : FSMContextState) :
    FSMContextState × TrimStartReply :=
  match parse_time_format text with
  | none => (st, .invalidTimeFormat)
  | some v =>
    if v < 0 then (st, .positiveTime)
    else ({ phase := some .waiting_for_trim_end
            data := { st.data with trimStart := some v } }, .askEndTime)

/-- The lowercased trim-end button labels of one language
(src/utils/localization.py, section trim_operation). -/
structure TrimPresets where
  endOfVideo : String
  preset10sec : String
  preset30sec : String
  preset1min : String
  preset2min : String
  preset5min : String
  preset10min : String

/-- Russian labels (the default language), already lowercased as the handler
compares them after `.lower()`. -/
def ruTrimPresets : TrimPresets :=
  { endOfVideo := "конец видео", preset10sec := "+10 сек", preset30sec := "+30 сек"
    preset1min := "+1 мин", preset2min := "+2 мин", preset5min := "+5 мин"
    preset10min := "+10 мин" }

/-- English labels, lowercased. -/
def enTrimPresets : TrimPresets :=
  { endOfVideo := "end of video", preset10sec := "+10 sec", preset30sec := "+30 sec"
    preset1min := "+1 min", preset2min := "+2 min", preset5min := "+5 min"
    preset10min := "+10 min" }

inductive TrimEndResult
  | stored (e : Option ℚ)
  | invalidFormat
  | endNotGreater
deriving DecidableEq, Repr

/-- The decision core of `process_trim_end` (src/handlers/video_handlers.py
lines 593-655).  `text` is the user input after the handler's
`strip().lower()`; `startTime` is `data.get("trim_start", 0)`.  `stored e`
means `state.update_data(trim_end=e)` was executed and processing continues;
the other results re-prompt and store nothing. -/
def process_trim_end (i18n : TrimPresets) (text : String) (startTime : ℚ) :
    TrimEndResult :=
  if text = i18n.endOfVideo then .stored none
  else if pyStartswith text "+" then
    if text = i18n.preset10sec then .stored (some (startTime + 10))
    else if text = i18n.preset30sec then .stored (some (startTime + 30))
    else if text = i18n.preset1min then .stored (some (startTime + 60))
    else if text = i18n.preset2min then .stored (some (startTime + 120))
    else if text = i18n.preset5min then .stored (some (startTime + 300))
    else if text = i18n.preset10min then .stored (some (startTime + 600))
    else
      match pyFloatOfChars (text.data.drop 1) with
      | some v => .stored (some (startTime + v))
      | none => .invalidFormat
  else
    match parse_time_format text with
    | some endT => if endT ≤ startTime then .endNotGreater else .stored (some endT)
    | none => .invalidFormat

/-! ## Temporary-file cleanup (src/services/video_processor.py,
cleanup_temp_file)

The filesystem is a finite set of path strings; `os.remove` is set erasure.
The Python guard is `str(file_path).startswith(str(self.temp_dir)) and
file_path.exists()`; any raised exception is caught and turns into `False`,
so the model is total. -/

/-- `VideoProcessor.cleanup_temp_file`: returns the `bool` result and the
filesystem after the call. -/
def cleanup_temp_file (tempDir : String) (fs : Finset String) (filePath : String) :
    Bool × Finset String :=
  if pyStartswith filePath tempDir = true ∧ filePath ∈ fs then
    (true, fs.erase filePath)
  else
    (false, fs)

/-- Real directory containment: `p` names a file strictly inside directory
`dir` (the path continues with a separator after the directory name).  Used
to compare the spec's "resides under the temp directory" with the code's
plain string-prefix test. -/
def residesUnder (dir p : String) : Bool :=
  (dir.data ++ ['/']).isPrefixOf p.data

/-! ## GIF two-stage pipeline (src/services/video_processor.py,
_convert_to_gif)

Both stages are `subprocess.run(..., check=True)` calls: a failing stage
raises, lands in the `except` block and the function returns `None` without
any cleanup.  Only the success path calls `cleanup_temp_file(palette_path)`.
A successful stage writes its output file. -/

structure GifEnv where
  paletteGenSucceeds : Bool
  gifEncodeSucceeds : Bool
deriving DecidableEq, Repr

/-- `VideoProcessor._convert_to_gif`: result path (or `None`) and the
filesystem after the call. -/
def convert_to_gif (env : GifEnv) (tempDir palettePath outputPath : String)
    (fs : Finset String) : Option String × Finset String :=
  if env.paletteGenSucceeds then
    let fs1 := insert palettePath fs
    if env.gifEncodeSucceeds then
      let fs2 := insert outputPath fs1
      let cleaned := cleanup_temp_file tempDir fs2 palettePath
      (some outputPath, cleaned.2)
    else (none, fs1)
  else (none, fs)

/-! ## FFmpeg invocation with retry (src/services/video_processor.py,
_run_ffmpeg_command)

`_run_ffmpeg_command` is decorated with
`@retry(stop=stop_after_attempt(3), wait=wait_fixed(2))` (tenacity), but its
body wraps the whole `ffmpeg.run` in `try/except` and returns `False` on
`ffmpeg.Error` or any other exception.  Tenacity retries only when the
wrapped callable raises, so the decorator observes a normal return.

Each attempt's behaviour of the external tool is given by an oracle
`outcomes : Nat → AttemptOutcome` (attempt number, starting at 1). -/

/-- What `ffmpeg.run` does on a given attempt. -/
inductive AttemptOutcome
  | success
  | ffmpegError
  | otherError
deriving DecidableEq, Repr

/-- The decorated function's body: builds the option mapping, runs the tool,
and converts both exception classes into a `False` return.  It never lets an
exception escape, hence always `Except.ok`. -/
def run_ffmpeg_body : AttemptOutcome → Except String Bool
  | .success => .ok true
  | .ffmpegError => .ok false
  | .otherError => .ok false

/-- `wait_fixed(2)`: the fixed inter-attempt delay in seconds. -/
def wait_fixed_seconds : ℚ := 2

/-- Trace of one decorated call: attempts actually made, the delay slept
before each retry, and the final outcome. -/
structure RetryTrace where
  attempts : Nat
  waits : List ℚ
  result : Except String Bool
deriving Repr

/-- Tenacity `retry` with `stop_after_attempt`: call the wrapped function; a
normal return ends the loop; an exception either triggers a fixed-delay
retry or, once attempts are exhausted, propagates. -/
def tenacity_retry (f : Nat → Except String Bool) : Nat → Nat → RetryTrace
  | attempt, 0 =>
    match f attempt with
    | .ok b => { attempts := attempt, waits := [], result := .ok b }
    | .error e => { attempts := attempt, waits := [], result := .error e }
  | attempt, fuel + 1 =>
    match f attempt with
    | .ok b => { attempts := attempt, waits := [], result := .ok b }
    | .error _ =>
      let rest := tenacity_retry f (attempt + 1) fuel
      { rest with waits := wait_fixed_seconds :: rest.waits }

/-- `_run_ffmpeg_command` as deployed: the tenacity decorator (3 total
attempts, 2s fixed wait) around the exception-swallowing body. -/
def run_ffmpeg_command (outcomes : Nat → AttemptOutcome) : RetryTrace :=
  tenacity_retry (fun i => run_ffmpeg_body (outcomes i)) 1 2

/-- A body that lets the tool's failure escape as an exception (what the
retry decorator is written for): used to exhibit the intended semantics. -/
def raising_body (outcomes : Nat → AttemptOutcome) (i : Nat) : Except String Bool :=
  match outcomes i with
  | .success => .ok true
  | .ffmpegError => .error "ffmpeg.Error"
  | .otherError => .error "Exception"

/-! ## Telegram file fetch (src/services/downloader.py,
download_from_telegram)

The network conversation is abstracted into an environment: the `getFile`
response (HTTP status, JSON parseability, `ok` flag, `file_path`, and the
declared file size in bytes), whether the local-API mounted source path
exists, and whether the chunked HTTP download succeeds.  The function's
control flow is reproduced branch by branch; note that it never reads the
declared size. -/

structure TelegramFileEnv where
  getFileHttpStatus : Nat
  getFileJsonParses : Bool
  getFileOk : Bool
  filePathStr : String
  declaredSizeBytes : Nat
  sourceAccessible : Bool
  chunkStreamSucceeds : Bool
deriving DecidableEq, Repr

/-- `MAX_FILE_SIZE_MB` default from src/utils/config.py. -/
def maxFileSizeMB : Nat := 50

inductive FetchOutcome
  | failure
  | fetchedByCopy (path : String)
  | fetchedByStream (path : String)
deriving DecidableEq, Repr

/-- `VideoDownloader.download_from_telegram`: resolve metadata, then either
copy the mounted file or stream it in chunks; every error path returns
`None` (here `.failure`).  `tempPath` is the freshly generated
`download_<hex>.mp4` destination. -/
def download_from_telegram (env : TelegramFileEnv) (tempPath : String) :
    FetchOutcome :=
  if env.getFileHttpStatus ≠ 200 then .failure
  else if ¬ env.getFileJsonParses then .failure
  else if ¬ env.getFileOk then .failure
  else if env.filePathStr = "" then .failure
  else if env.sourceAccessible then .fetchedByCopy tempPath
  else if env.chunkStreamSucceeds then .fetchedByStream tempPath
  else .failure

/-- An over-limit environment: every stage succeeds and the declared size is
51 MB, above the 50 MB ceiling. -/
def oversizedEnv : TelegramFileEnv :=
  { getFileHttpStatus := 200, getFileJsonParses := true, getFileOk := true
    filePathStr := "/var/lib/telegram-bot-api/TOKEN/videos/file_1.mp4"
    declaredSizeBytes := 51 * 1024 * 1024
    sourceAccessible := true, chunkStreamSucceeds := true }

/-! ## Claim theorems for the executor, downloader, cancel and cleanup -/

/-- Claim C2 (code evaluation): the deployed `_run_ffmpeg_command` makes
exactly one attempt and sleeps no inter-attempt delay for every behaviour of
the external tool, because its body converts failures into a normal `False`
return that tenacity treats as success; at an always-failing invocation it
returns `False` after that single attempt.  The final conjunct shows the
retry machinery itself would make 3 attempts if the body let the exception
escape, which is what the decorator (and the spec) intend. -/
theorem run_ffmpeg_single_attempt :
    (∀ outcomes : Nat → AttemptOutcome,
      (run_ffmpeg_command outcomes).attempts = 1
      ∧ (run_ffmpeg_command outcomes).waits = [])
    ∧ run_ffmpeg_command (fun _ => .ffmpegError) =
        { attempts := 1, waits := [], result := .ok false }
    ∧ (tenacity_retry (raising_body (fun _ => .ffmpegError)) 1 2).attempts = 3
    ∧ (tenacity_retry (raising_body (fun _ => .ffmpegError)) 1 2).waits =
        [wait_fixed_seconds, wait_fixed_seconds] := by
  refine ⟨?_, rfl, rfl, rfl⟩
  intro outcomes
  cases h : outcomes 1 <;>
    simp [run_ffmpeg_command, tenacity_retry, run_ffmpeg_body, h]

/-- Claim C3 (code evaluation): `download_from_telegram` fetches a file whose
declared size (51 MB) exceeds the 50 MB ceiling — the bytes are copied and
the path returned — and its outcome is independent of the declared size
field, i.e. the function performs no size check at all. -/
theorem download_ignores_declared_size :
    oversizedEnv.declaredSizeBytes > maxFileSizeMB * 1024 * 1024
    ∧ download_from_telegram oversizedEnv "temp/download_0a1b2c3d.mp4" =
        .fetchedByCopy "temp/download_0a1b2c3d.mp4"
    ∧ ∀ (env : TelegramFileEnv) (path : String) (n : Nat),
        download_from_telegram { env with declaredSizeBytes := n } path =
          download_from_telegram env path := by
  refine ⟨by norm_num [oversizedEnv, maxFileSizeMB], rfl, ?_⟩
  intro env path n
  rfl

/-- A session in `waiting_for_operation` holding a source artifact. -/
def c4Session : FSMContextState :=
  { phase := some .waiting_for_operation
    data := { emptySessionData with videoPath := some "temp/src.mp4" } }

/-- Claim C4 counterexample: cancelling a session in `waiting_for_operation`
clears the FSM state, but the temporary source artifact is still on disk
afterwards — the claim's "removes the session's temporary source artifact
from disk" fails at this input. -/
theorem cancel_leaves_artifact :
    (cmd_cancel c4Session {"temp/src.mp4"}).1.phase = none
    ∧ (cmd_cancel c4Session {"temp/src.mp4"}).2.2 = .operationCanceled
    ∧ "temp/src.mp4" ∈ (cmd_cancel c4Session {"temp/src.mp4"}).2.1 := by
  refine ⟨rfl, rfl, ?_⟩
  decide

/-- Claim C4 amended: a cancel signal (the /cancel command or the cancel
button) issued in any phase other than `processing` clears the session state
(returning the session to idle) and leaves the filesystem unchanged — the
temporary source artifact is not removed. -/
theorem cancel_clears_state_only (st : FSMContextState) (fs : Finset String)
    (p : Phase) (h1 : st.phase = some p) (_h2 : p ≠ .processing) :
    cmd_cancel st fs = (clearedContext, fs, .operationCanceled)
    ∧ format_selection_cancel st fs = (clearedContext, fs) := by
  refine ⟨?_, rfl⟩
  unfold cmd_cancel
  rw [h1]

/-- Witness for the amended C4 at a concrete session. -/
theorem cancel_clears_state_only_witness :
    cmd_cancel c4Session {"temp/src.mp4"} =
      (clearedContext, {"temp/src.mp4"}, .operationCanceled) :=
  (cancel_clears_state_only c4Session {"temp/src.mp4"} .waiting_for_operation
    rfl (by decide)).1

/-- Claim C7 counterexample: palette generation succeeds, the paletted
encode fails; the job fails (`none`) but the palette artifact is still on
disk — the claim's "the palette intermediate artifact is deleted in every
outcome" fails at this input. -/
theorem gif_failed_encode_keeps_palette :
    (convert_to_gif ⟨true, false⟩ "temp" "temp/pal.png" "temp/out.gif" ∅).1 = none
    ∧ "temp/pal.png" ∈
        (convert_to_gif ⟨true, false⟩ "temp" "temp/pal.png" "temp/out.gif" ∅).2 := by
  refine ⟨rfl, ?_⟩
  decide

/-- Claim C7 amended: the two stages are all-or-nothing (the job yields an
output artifact exactly when both stages succeed), and the palette artifact
is deleted only on the success path: when the encode stage fails the palette
file is left on disk, and when palette generation itself fails nothing was
written. -/
theorem gif_two_stage (env : GifEnv) (tempDir pp op : String) (fs : Finset String)
    (hpre : pyStartswith pp tempDir = true) (hne : pp ≠ op) :
    ((convert_to_gif env tempDir pp op fs).1 = some op ↔
      env.paletteGenSucceeds = true ∧ env.gifEncodeSucceeds = true)
    ∧ (env.paletteGenSucceeds = true → env.gifEncodeSucceeds = true →
        pp ∉ (convert_to_gif env tempDir pp op fs).2
        ∧ op ∈ (convert_to_gif env tempDir pp op fs).2)
    ∧ (env.paletteGenSucceeds = true → env.gifEncodeSucceeds = false →
        (convert_to_gif env tempDir pp op fs).1 = none
        ∧ pp ∈ (convert_to_gif env tempDir pp op fs).2)
    ∧ (env.paletteGenSucceeds = false →
        convert_to_gif env tempDir pp op fs = (none, fs)) := by
  obtain ⟨pg, ge⟩ := env
  cases pg <;> cases ge <;>
    simp only [convert_to_gif, cleanup_temp_file, Bool.false_eq_true, if_false,
      if_true, Bool.true_and, and_true, true_and] <;>
    simp_all [cleanup_temp_file, hpre, Finset.mem_insert, Finset.mem_erase, hne,
      Ne.symm hne]

/-- Witness for the amended C7 at a concrete successful job. -/
theorem gif_two_stage_witness :
    "temp/pal.png" ∉
      (convert_to_gif ⟨true, true⟩ "temp" "temp/pal.png" "temp/out.gif" ∅).2
    ∧ "temp/out.gif" ∈
      (convert_to_gif ⟨true, true⟩ "temp" "temp/pal.png" "temp/out.gif" ∅).2 :=
  (gif_two_stage ⟨true, true⟩ "temp" "temp/pal.png" "temp/out.gif" ∅
    (by decide) (by decide)).2.1 rfl rfl

/-- A prefix of a list is still a prefix after removing an appended tail. -/
theorem isPrefixOf_append_left (a : List Char) (b : List Char) :
    ∀ p : List Char, (a ++ b).isPrefixOf p = true → a.isPrefixOf p = true := by
  induction a with
  | nil => intro p _; simp [List.isPrefixOf]
  | cons c cs ih =>
    intro p h
    cases p with
    | nil => simp [List.isPrefixOf] at h
    | cons d ds =>
      simp only [List.cons_append, List.isPrefixOf, Bool.and_eq_true] at h ⊢
      exact ⟨h.1, ih ds h.2⟩

/-- Directory containment implies the code's plain string-prefix test. -/
theorem residesUnder_startswith (dir p : String) (h : residesUnder dir p = true) :
    pyStartswith p dir = true :=
  isPrefixOf_append_left dir.data ['/'] p.data h

/-- Claim C8 counterexample: `temp_evil/a.mp4` does not reside under the
temp directory `temp`, yet `cleanup_temp_file` deletes it and returns
success, because the guard is a plain string-prefix test — the claim's "for
any path outside that directory (including sibling directories whose name
merely extends the temp directory name) it removes nothing and returns
failure" fails at this input. -/
theorem cleanup_deletes_sibling :
    residesUnder "temp" "temp_evil/a.mp4" = false
    ∧ cleanup_temp_file "temp" {"temp_evil/a.mp4"} "temp_evil/a.mp4" =
        (true, (∅ : Finset String)) := by
  constructor
  · decide
  · rw [cleanup_temp_file, if_pos ⟨by decide, by decide⟩]
    rw [Prod.mk.injEq]
    exact ⟨rfl, by decide⟩

/-- Claim C8 amended: `cleanup_temp_file` deletes the file exactly when the
path string starts with the temp-directory string and the file exists; in
particular any file genuinely residing under the temp directory is deleted,
and a path failing the string-prefix test (or a missing file) is left alone
with a `False` result.  Because the guard is only a string prefix, paths in
sibling directories whose name extends the temp directory name also pass it
(see the counterexample). -/
theorem cleanup_string_prefix_guard (tempDir p : String) (fs : Finset String) :
    (residesUnder tempDir p = true → p ∈ fs →
      cleanup_temp_file tempDir fs p = (true, fs.erase p))
    ∧ (pyStartswith p tempDir = false →
      cleanup_temp_file tempDir fs p = (false, fs))
    ∧ (p ∉ fs → cleanup_temp_file tempDir fs p = (false, fs))
    ∧ (cleanup_temp_file tempDir fs p = (true, fs.erase p)
       ∨ cleanup_temp_file tempDir fs p = (false, fs)) := by
  refine ⟨?_, ?_, ?_, ?_⟩
  · intro hres hmem
    rw [cleanup_temp_file, if_pos ⟨residesUnder_startswith tempDir p hres, hmem⟩]
  · intro hpre
    rw [cleanup_temp_file, if_neg]
    intro hc
    rw [hc.1] at hpre
    exact Bool.true_eq_false.mp hpre
  · intro hmem
    rw [cleanup_temp_file, if_neg]
    intro hc
    exact hmem hc.2
  · rw [cleanup_temp_file]
    by_cases hc : pyStartswith p tempDir = true ∧ p ∈ fs
    · rw [if_pos hc]; exact Or.inl rfl
    · rw [if_neg hc]; exact Or.inr rfl

/-- Witness for the amended C8: a file under the temp directory is deleted
with a `True` result. -/
theorem cleanup_string_prefix_guard_witness :
    cleanup_temp_file "temp" {"temp/a.mp4"} "temp/a.mp4" =
      (true, ({"temp/a.mp4"} : Finset String).erase "temp/a.mp4") :=
  (cleanup_string_prefix_guard "temp" "temp/a.mp4" {"temp/a.mp4"}).1
    (by decide) (by decide)

/-- Claim C9: for a path under the temp directory holding an existing file,
the first `cleanup_temp_file` call deletes it and returns `True`; the second
call finds the file gone, returns `False` and leaves the filesystem
unchanged (the model is total — the Python `except` turns any exception into
`False`, and no exception path is reachable here). -/
theorem cleanup_second_call_noop (tempDir p : String) (fs : Finset String)
    (h1 : residesUnder tempDir p = true) (h2 : p ∈ fs) :
    (cleanup_temp_file tempDir fs p).1 = true
    ∧ p ∉ (cleanup_temp_file tempDir fs p).2
    ∧ cleanup_temp_file tempDir (cleanup_temp_file tempDir fs p).2 p =
        (false, (cleanup_temp_file tempDir fs p).2) := by
  have hfirst : cleanup_temp_file tempDir fs p = (true, fs.erase p) :=
    (cleanup_string_prefix_guard tempDir p fs).1 h1 h2
  rw [hfirst]
  refine ⟨rfl, Finset.not_mem_erase p fs, ?_⟩
  rw [cleanup_temp_file, if_neg]
  intro hc
  exact Finset.not_mem_erase p fs hc.2

/-- Witness for C9 at a concrete file. -/
theorem cleanup_second_call_noop_witness :
    (cleanup_temp_file "temp" {"temp/b.mp4"} "temp/b.mp4").1 = true
    ∧ "temp/b.mp4" ∉ (cleanup_temp_file "temp" {"temp/b.mp4"} "temp/b.mp4").2
    ∧ cleanup_temp_file "temp"
        (cleanup_temp_file "temp" {"temp/b.mp4"} "temp/b.mp4").2 "temp/b.mp4" =
        (false, (cleanup_temp_file "temp" {"temp/b.mp4"} "temp/b.mp4").2) :=
  cleanup_second_call_noop "temp" "temp/b.mp4" {"temp/b.mp4"}
    (by decide) (by decide)

/-! ## Claim theorems for the time parser and the trim flow -/

/-- Claim C5: the three input shapes denoting 90 seconds all parse to 90;
the malformed inputs "abc" and ":" raise the invalid-input error; and on
such errors `process_trim_start` re-prompts leaving the whole session
context (phase and accumulated data) unchanged. -/
theorem parse_time_equivalent_shapes :
    parse_time_format "90" = some 90
    ∧ parse_time_format "1:30" = some 90
    ∧ parse_time_format "0:01:30" = some 90
    ∧ parse_time_format "abc" = none
    ∧ parse_time_format ":" = none
    ∧ (∀ st : FSMContextState, process_trim_start "abc" st = (st, .invalidTimeFormat))
    ∧ (∀ st : FSMContextState, process_trim_start ":" st = (st, .invalidTimeFormat)) := by
  refine ⟨by decide, ?_, ?_, ?_, ?_, ?_, ?_⟩
  · simp [parse_time_format, pyFloatOfChars, pyStripChars, parseUnsignedDecimal,
      splitOnChar, digitsToNat]
    norm_num
  · simp [parse_time_format, pyFloatOfChars, pyStripChars, parseUnsignedDecimal,
      splitOnChar, digitsToNat]
    norm_num
  · simp [parse_time_format, pyFloatOfChars, pyStripChars, parseUnsignedDecimal,
      splitOnChar, digitsToNat]
  · simp [parse_time_format, pyFloatOfChars, pyStripChars, parseUnsignedDecimal,
      splitOnChar, digitsToNat]
  · intro st
    rw [process_trim_start, show parse_time_format "abc" = none from by
      simp [parse_time_format, pyFloatOfChars, pyStripChars, parseUnsignedDecimal,
        splitOnChar, digitsToNat]]
  · intro st
    rw [process_trim_start, show parse_time_format ":" = none from by
      simp [parse_time_format, pyFloatOfChars, pyStripChars, parseUnsignedDecimal,
        splitOnChar, digitsToNat]]

/-- Claim C6 counterexample: in the trim-end phase the relative input "+0"
is accepted with start time 10 and stores the end time 10, which does not
exceed the start time — the claim's "for every accepted end-time input the
stored end time exceeds the start time" fails at this input. -/
theorem trim_end_plus_zero_accepted :
    process_trim_end ruTrimPresets "+0" 10 = .stored (some 10)
    ∧ ¬ (10 : ℚ) < 10 := by
  constructor
  · have h : pyFloatOfChars (("+0" : String).data.drop 1) = some 0 := by decide
    rw [process_trim_end]
    rw [if_neg (by decide : ¬ ("+0" : String) = ruTrimPresets.endOfVideo)]
    rw [if_pos (by decide : pyStartswith "+0" "+" = true)]
    rw [if_neg (by decide : ¬ ("+0" : String) = ruTrimPresets.preset10sec)]
    rw [if_neg (by decide : ¬ ("+0" : String) = ruTrimPresets.preset30sec)]
    rw [if_neg (by decide : ¬ ("+0" : String) = ruTrimPresets.preset1min)]
    rw [if_neg (by decide : ¬ ("+0" : String) = ruTrimPresets.preset2min)]
    rw [if_neg (by decide : ¬ ("+0" : String) = ruTrimPresets.preset5min)]
    rw [if_neg (by decide : ¬ ("+0" : String) = ruTrimPresets.preset10min)]
    rw [h]
    norm_num
  · norm_num

/-- Claim C6 amended: only the absolute branch of `process_trim_end`
validates the end time — an accepted absolute input always exceeds the start
time, and an end not greater than the start re-prompts with an error.  The
relative "+N" branch (when no preset label matches) stores `start + N`
unconditionally, with no comparison against the start time, so non-positive
offsets are accepted (see the counterexample). -/
theorem trim_end_validation (i18n : TrimPresets) (text : String) (startTime : ℚ) :
    (∀ endT : ℚ, text ≠ i18n.endOfVideo → pyStartswith text "+" = false →
      process_trim_end i18n text startTime = .stored (some endT) → startTime < endT)
    ∧ (∀ v : ℚ, text ≠ i18n.endOfVideo → pyStartswith text "+" = true →
        text ≠ i18n.preset10sec → text ≠ i18n.preset30sec →
        text ≠ i18n.preset1min → text ≠ i18n.preset2min →
        text ≠ i18n.preset5min → text ≠ i18n.preset10min →
        pyFloatOfChars (text.data.drop 1) = some v →
        process_trim_end i18n text startTime = .stored (some (startTime + v))) := by
  constructor
  · intro endT hend hplus hrun
    rw [process_trim_end, if_neg hend, if_neg (by rw [hplus]; exact Bool.false_ne_true)]
      at hrun
    split at hrun
    · next e hp =>
      split at hrun
      · exact absurd hrun (by simp)
      · next hle =>
        simp only [TrimEndResult.stored.injEq, Option.some.injEq] at hrun
        rw [← hrun]
        exact lt_of_not_le hle
    · next hp => exact absurd hrun (by simp)
  · intro v hend hplus h10 h30 h1m h2m h5m h10m hv
    rw [process_trim_end, if_neg hend, if_pos hplus, if_neg h10, if_neg h30,
      if_neg h1m, if_neg h2m, if_neg h5m, if_neg h10m, hv]

/-- Witness for the amended C6: the absolute input "15" with start 10 is
validated (15 > 10), and the relative input "+0" is stored unvalidated. -/
theorem trim_end_validation_witness :
    (10 : ℚ) < 15
    ∧ process_trim_end ruTrimPresets "+0" 10 = .stored (some (10 + 0)) := by
  constructor
  · exact (trim_end_validation ruTrimPresets "15" 10).1 15 (by decide) (by decide)
      (by decide)
  · exact (trim_end_validation ruTrimPresets "+0" 10).2 0 (by decide) (by decide)
      (by decide) (by decide) (by decide) (by decide) (by decide) (by decide)
      (by decide)

/-! ## Structural lemmas about the string helpers, used by claim C10 -/

theorem dropWhile_eq_self_of_all (p : Char → Bool) (l : List Char)
    (h : ∀ c ∈ l, p c = false) : l.dropWhile p = l := by
  cases l with
  | nil => rfl
  | cons c cs =>
    rw [List.dropWhile_cons, h c (List.mem_cons_self c cs)]
    simp

theorem pyStripChars_eq_self (l : List Char)
    (h : ∀ c ∈ l, c.isWhitespace = false) : pyStripChars l = l := by
  unfold pyStripChars
  rw [dropWhile_eq_self_of_all _ l h]
  rw [dropWhile_eq_self_of_all _ l.reverse (fun c hc => h c (List.mem_reverse.mp hc))]
  exact List.reverse_reverse l

theorem splitOnChar_cons (sep c : Char) (cs : List Char) :
    splitOnChar sep (c :: cs) =
      if c = sep then [] :: splitOnChar sep cs
      else
        match splitOnChar sep cs with
        | [] => [[c]]
        | h :: t => (c :: h) :: t := rfl

theorem splitOnChar_ne_nil (sep : Char) (l : List Char) : splitOnChar sep l ≠ [] := by
  cases l with
  | nil => simp [splitOnChar]
  | cons c cs =>
    rw [splitOnChar_cons]
    by_cases h : c = sep
    · rw [if_pos h]; simp
    · rw [if_neg h]
      cases hs : splitOnChar sep cs <;> simp

theorem splitOnChar_of_not_mem (sep : Char) (l : List Char) (h : sep ∉ l) :
    splitOnChar sep l = [l] := by
  induction l with
  | nil => rfl
  | cons c cs ih =>
    have hc : ¬ c = sep := fun he => h (he ▸ List.mem_cons_self c cs)
    have hcs : sep ∉ cs := fun hm => h (List.mem_cons_of_mem c hm)
    rw [splitOnChar_cons, if_neg hc, ih hcs]

theorem splitOnChar_append (sep : Char) (sa sb : List Char) (hsa : sep ∉ sa) :
    splitOnChar sep (sa ++ sep :: sb) = sa :: splitOnChar sep sb := by
  induction sa with
  | nil =>
    show splitOnChar sep (sep :: sb) = [] :: splitOnChar sep sb
    rw [splitOnChar_cons, if_pos rfl]
  | cons c cs ih =>
    have hc : ¬ c = sep := fun he => hsa (he ▸ List.mem_cons_self c cs)
    have hcs : sep ∉ cs := fun hm => hsa (List.mem_cons_of_mem c hm)
    show splitOnChar sep (c :: (cs ++ sep :: sb)) = (c :: cs) :: splitOnChar sep sb
    rw [splitOnChar_cons, if_neg hc, ih hcs]

theorem exists_part_of_mem (sep c : Char) (hne : c ≠ sep) :
    ∀ l : List Char, c ∈ l → ∃ part, part ∈ splitOnChar sep l ∧ c ∈ part := by
  intro l
  induction l with
  | nil => intro h; exact absurd h (List.not_mem_nil c)
  | cons d ds ih =>
    intro hm
    by_cases hd : d = sep
    · have hcm : c ∈ ds := by
        rcases List.mem_cons.mp hm with h | h
        · exact absurd (h.trans hd) hne
        · exact h
      obtain ⟨part, hp1, hp2⟩ := ih hcm
      refine ⟨part, ?_, hp2⟩
      rw [splitOnChar_cons, if_pos hd]
      exact List.mem_cons_of_mem _ hp1
    · obtain ⟨h', t', hsplit⟩ := List.exists_cons_of_ne_nil (splitOnChar_ne_nil sep ds)
      rcases List.mem_cons.mp hm with h | h
      · refine ⟨d :: h', ?_, h ▸ List.mem_cons_self d h'⟩
        rw [splitOnChar_cons, if_neg hd, hsplit]
        exact List.mem_cons_self _ _
      · obtain ⟨part, hp1, hp2⟩ := ih h
        rw [hsplit] at hp1
        rcases List.mem_cons.mp hp1 with hh | hh
        · refine ⟨d :: h', ?_, List.mem_cons_of_mem d (hh ▸ hp2)⟩
          rw [splitOnChar_cons, if_neg hd, hsplit]
          exact List.mem_cons_self _ _
        · refine ⟨part, ?_, hp2⟩
          rw [splitOnChar_cons, if_neg hd, hsplit]
          exact List.mem_cons_of_mem _ hh

theorem parseUnsignedDecimal_none_of_colon (l : List Char) (hc : ':' ∈ l) :
    parseUnsignedDecimal l = none := by
  have hall : ∀ m : List Char, ':' ∈ m → m.all Char.isDigit = false := by
    intro m hm
    cases hd : m.all Char.isDigit
    · rfl
    · have := List.all_eq_true.mp hd ':' hm
      simp at this
  rw [parseUnsignedDecimal]
  rw [if_neg (fun h => by rw [hall l hc] at h; exact Bool.false_ne_true h.2)]
  obtain ⟨part, hpmem, hcpart⟩ := exists_part_of_mem '.' ':' (by decide) l hc
  cases hs : splitOnChar '.' l with
  | nil => rfl
  | cons p1 t1 =>
    cases t1 with
    | nil => rfl
    | cons p2 t2 =>
      cases t2 with
      | nil =>
        rw [hs] at hpmem
        change (if p1.all Char.isDigit = true ∧ p2.all Char.isDigit = true ∧
            (p1 ≠ [] ∨ p2 ≠ []) then
          some ((digitsToNat p1 : ℚ) + (digitsToNat p2 : ℚ) / (10 : ℚ) ^ p2.length)
          else none) = none
        rcases List.mem_cons.mp hpmem with hp | hp
        · rw [if_neg]
          intro hcond
          have hpd : p1.all Char.isDigit = false := by
            rw [← hp]; exact hall part hcpart
          rw [hpd] at hcond
          exact Bool.false_ne_true hcond.1
        · rcases List.mem_cons.mp hp with hp | hp
          · rw [if_neg]
            intro hcond
            have hpd : p2.all Char.isDigit = false := by
              rw [← hp]; exact hall part hcpart
            rw [hpd] at hcond
            exact Bool.false_ne_true hcond.2.1
          · exact absurd hp (List.not_mem_nil part)
      | cons _ _ => rfl

theorem pyFloatOfChars_none_of_colon (l : List Char)
    (hws : ∀ c ∈ l, c.isWhitespace = false) (hc : ':' ∈ l) :
    pyFloatOfChars l = none := by
  cases l with
  | nil => exact absurd hc (List.not_mem_nil _)
  | cons c rest =>
    have hred : pyFloatOfChars (c :: rest) =
        if c = '+' then parseUnsignedDecimal rest
        else if c = '-' then (parseUnsignedDecimal rest).map Neg.neg
        else parseUnsignedDecimal (c :: rest) := by
      rw [pyFloatOfChars, pyStripChars_eq_self _ hws]
    rw [hred]
    by_cases h1 : c = '+'
    · rw [if_pos h1]
      refine parseUnsignedDecimal_none_of_colon rest ?_
      rcases List.mem_cons.mp hc with h | h
      · exact absurd (h.trans h1) (by decide)
      · exact h
    · rw [if_neg h1]
      by_cases h2 : c = '-'
      · rw [if_pos h2]
        have hrest : parseUnsignedDecimal rest = none := by
          refine parseUnsignedDecimal_none_of_colon rest ?_
          rcases List.mem_cons.mp hc with h | h
          · exact absurd (h.trans h2) (by decide)
          · exact h
        rw [hrest]
        rfl
      · rw [if_neg h2]
        exact parseUnsignedDecimal_none_of_colon (c :: rest) hc

/-- Claim C10: `parse_time_format` performs no per-component range or sign
validation.  Concretely "1:99" parses to 159, "0:-30" to -30, and "-5" to -5
without raising; in general, for any two colon-free, whitespace-free
components that `float` accepts with values `a` and `b`, the parser returns
the weighted sum `a * 60 + b`, whatever the sign or magnitude of the
components. -/
theorem parse_time_no_range_validation :
    parse_time_format "1:99" = some 159
    ∧ parse_time_format "0:-30" = some (-30)
    ∧ parse_time_format "-5" = some (-5)
    ∧ ∀ (sa sb : List Char) (a b : ℚ),
        (∀ c ∈ sa, c ≠ ':' ∧ c.isWhitespace = false) →
        (∀ c ∈ sb, c ≠ ':' ∧ c.isWhitespace = false) →
        pyFloatOfChars sa = some a → pyFloatOfChars sb = some b →
        parse_time_format (String.mk (sa ++ ':' :: sb)) = some (a * 60 + b) := by
  refine ⟨?_, ?_, ?_, ?_⟩
  · simp [parse_time_format, pyFloatOfChars, pyStripChars, parseUnsignedDecimal,
      splitOnChar, digitsToNat]
    norm_num
  · simp [parse_time_format, pyFloatOfChars, pyStripChars, parseUnsignedDecimal,
      splitOnChar, digitsToNat]
  · simp [parse_time_format, pyFloatOfChars, pyStripChars, parseUnsignedDecimal,
      splitOnChar, digitsToNat]
  · intro sa sb a b ha hb hfa hfb
    have hwsL : ∀ c ∈ sa ++ ':' :: sb, c.isWhitespace = false := by
      intro c hcm
      rcases List.mem_append.mp hcm with h | h
      · exact (ha c h).2
      · rcases List.mem_cons.mp h with h | h
        · rw [h]; decide
        · exact (hb c h).2
    have hsa : ':' ∉ sa := fun hm => (ha ':' hm).1 rfl
    have hsb : ':' ∉ sb := fun hm => (hb ':' hm).1 rfl
    have hcolon : ':' ∈ sa ++ ':' :: sb :=
      List.mem_append.mpr (Or.inr (List.mem_cons_self _ _))
    have hnone : pyFloatOfChars (sa ++ ':' :: sb) = none :=
      pyFloatOfChars_none_of_colon _ hwsL hcolon
    have hsplit : splitOnChar ':' (sa ++ ':' :: sb) = [sa, sb] := by
      rw [splitOnChar_append ':' sa sb hsa, splitOnChar_of_not_mem ':' sb hsb]
    unfold parse_time_format
    rw [show (String.mk (sa ++ ':' :: sb)).data = sa ++ ':' :: sb from rfl]
    rw [pyStripChars_eq_self _ hwsL, hnone, hsplit]
    change (match pyFloatOfChars sa, pyFloatOfChars sb with
      | some mv, some sv => some (mv * 60 + sv)
      | _, _ => none) = some (a * 60 + b)
    rw [hfa, hfb]

/-- Witness for C10's general clause at the out-of-range components of
"1:99". -/
theorem parse_time_no_range_validation_witness :
    parse_time_format (String.mk (['1'] ++ ':' :: ['9', '9'])) =
      some ((1 : ℚ) * 60 + 99) :=
  parse_time_no_range_validation.2.2.2 ['1'] ['9', '9'] 1 99
    (by decide) (by decide) (by decide) (by decide)

end VCB
